import Mathlib

/-!
Shallow embedding of the token-gated governance/vote contract
(`src/token-gated-vote-contract/src/lib.rs`).

Addresses and symbols are modelled as `Nat` and `String`; `u64` ledger
timestamps as `Nat`; `i128` tallies as `Int` with explicit saturation bounds.
Host storage is a record of the contract's five storage keys; each exposed
operation is a function from the pre-state (plus the host-provided
authorization predicate, token-balance oracle and ledger clock) to a
`CallOut`, which threads the storage state reached at each return point of
the Rust function and records the `extend_ttl` calls performed, in source
order.
-/

namespace TokenGatedVote

/-- `VOTE_FOR` constant (`symbol_short!("FOR")`). -/
def VOTE_FOR : String := "FOR"

/-- `VOTE_AGAINST` constant (`symbol_short!("AGAINST")`). -/
def VOTE_AGAINST : String := "AGAINST"

/-- `VOTE_ABSTAIN` constant (`symbol_short!("ABSTAIN")`). -/
def VOTE_ABSTAIN : String := "ABSTAIN"

/-- `MAX_PROPOSAL_DURATION: u64 = 1292000` (~15 days, seconds). -/
def MAX_PROPOSAL_DURATION : Nat := 1292000

/-- `MIN_PROPOSAL_DURATION: u64 = 432000` (~5 days, seconds). -/
def MIN_PROPOSAL_DURATION : Nat := 432000

/-- `PROPOSALS_TTL_EXTENSION: u32 = 2_100_000`. -/
def PROPOSALS_TTL_EXTENSION : Nat := 2100000

/-- `PROPOSAL_TTL_BUFFER: u32 = 604_800`. -/
def PROPOSAL_TTL_BUFFER : Nat := 604800

/-- `VOTE_TTL_EXTENSION: u32 = 1_600_000`. -/
def VOTE_TTL_EXTENSION : Nat := 1600000

/-- Modulus of the Rust `u32` type; `x as u32` truncates a `u64` to `x % 2^32`. -/
def U32_MOD : Nat := 4294967296

/-- Largest value of the Rust `i128` type (saturation ceiling of `saturating_add`). -/
def I128_MAX : Int := 170141183460469231731687303715884105727

/-- Smallest value of the Rust `i128` type (saturation floor of `saturating_add`). -/
def I128_MIN : Int := -170141183460469231731687303715884105728

/-- `i128::saturating_add`: the exact sum clamped into the `i128` range. -/
def i128_saturating_add (a b : Int) : Int :=
  max I128_MIN (min I128_MAX (a + b))

/-- `TokenGatedVoteProposalData`: the stored record of one proposal. -/
structure TokenGatedVoteProposalData where
  description : String
  start_time : Nat
  end_time : Nat
  total_for : Int
  total_against : Int
  total_abstain : Int
deriving DecidableEq, Repr

/-- `TokenGatedVoteProposalStatus`: lifecycle status relative to a timestamp. -/
inductive TokenGatedVoteProposalStatus where
  | Pending
  | Active
  | Ended
deriving DecidableEq, Repr

/-- `TokenGatedVoteContractErrors`: the contract's error enum. -/
inductive TokenGatedVoteContractErrors where
  | ContractNotInitialized
  | ContractAlreadyInitialized
  | ProposalAlreadyExists
  | ProposalNotFound
  | UserAlreadyVoted
  | UserCannotVote
  | VotingNotActive
  | InvalidChoice
  | StartTimeAfterEnd
  | StartTimeInPast
  | DurationTooLong
  | DurationTooShort
deriving DecidableEq, Repr

/-- `TokenGatedVoteContractDataKey`: the storage keys of the contract. -/
inductive TokenGatedVoteContractDataKey where
  | Admin
  | Token
  | Proposal (id : String)
  | Proposals
  | Votes (addr : Nat)
deriving DecidableEq, Repr

/-- `TokenGatedVoteProposalSummary`: an entry of `get_governance_details`. -/
structure TokenGatedVoteProposalSummary where
  id : String
  description : String
  status : TokenGatedVoteProposalStatus
deriving DecidableEq, Repr

/-- The contract's persistent + instance storage, one field per storage key.
`proposals id = none` models an absent `Proposal(id)` entry; the `Proposals`
index and a user's `Votes` map read back as empty when absent
(`unwrap_or(Vec::new)` / `unwrap_or(Map::new)`), so they are modelled by their
defaulted values directly. -/
structure ContractState where
  admin : Option Nat
  token : Option Nat
  proposals : String → Option TokenGatedVoteProposalData
  index : List String
  votes : Nat → String → Option Bool

/-- Storage of a freshly deployed instance: every key absent. -/
def initialState : ContractState :=
  { admin := none
    token := none
    proposals := fun _ => none
    index := []
    votes := fun _ _ => none }

/-- Outcome of one invocation. `ok`/`err` carry the storage state as of the
corresponding `return` in the Rust source (writes are threaded in source
order, so an early `Err` return carries whatever was written before it);
`ok` also records the `(key, extend_to)` arguments of each
`extend_ttl` call, in source order. `authAbort` models `require_auth`
trapping the whole call at the host level. -/
inductive CallOut where
  | ok (s : ContractState) (ttl : List (TokenGatedVoteContractDataKey × Nat))
  | err (s : ContractState) (e : TokenGatedVoteContractErrors)
  | authAbort (s : ContractState)

/-- Engine error of an outcome, if any. -/
def CallOut.errOf : CallOut → Option TokenGatedVoteContractErrors
  | .ok _ _ => none
  | .err _ e => some e
  | .authAbort _ => none

/-- Storage state carried by an outcome. -/
def CallOut.state : CallOut → ContractState
  | .ok s _ => s
  | .err s _ => s
  | .authAbort s => s

/-- `extend_ttl` calls recorded by a successful outcome. -/
def CallOut.ttlOf : CallOut → List (TokenGatedVoteContractDataKey × Nat)
  | .ok _ l => l
  | .err _ _ => []
  | .authAbort _ => []

/-- `calculate_proposal_ttl`: TTL extension for a proposal entry.  The Rust
source computes `proposal_duration as u32 + PROPOSAL_TTL_BUFFER`, i.e. the
`u64` duration is truncated to 32 bits before the buffer is added (the `u32`
addition is modelled as wrapping). -/
def calculate_proposal_ttl (ledger_time proposal_end_time : Nat) : Nat :=
  let proposal_duration :=
    if proposal_end_time > ledger_time then proposal_end_time - ledger_time else 0
  let min_ttl := (proposal_duration % U32_MOD + PROPOSAL_TTL_BUFFER) % U32_MOD
  max min_ttl PROPOSALS_TTL_EXTENSION

/-- `compute_proposal_status`: status of a proposal at a ledger timestamp. -/
def compute_proposal_status (ledger_time : Nat)
    (proposal : TokenGatedVoteProposalData) : TokenGatedVoteProposalStatus :=
  if ledger_time < proposal.start_time then .Pending
  else if ledger_time ≤ proposal.end_time then .Active
  else .Ended

/-- `validate_proposal_times`: the four timing checks of `create_proposal`,
in source order; `none` means all pass. -/
def validate_proposal_times (ledger_time start_time end_time : Nat) :
    Option TokenGatedVoteContractErrors :=
  if start_time ≥ end_time then some .StartTimeAfterEnd
  else if start_time < ledger_time then some .StartTimeInPast
  else if end_time - start_time > MAX_PROPOSAL_DURATION then some .DurationTooLong
  else if end_time - start_time < MIN_PROPOSAL_DURATION then some .DurationTooShort
  else none

/-- `__constructor(env, admin, token)`: one-time initialization. -/
def __constructor (s : ContractState) (admin token : Nat) : CallOut :=
  if (s.admin).isSome then .err s .ContractAlreadyInitialized
  else .ok { s with admin := some admin, token := some token } []

/-- `create_proposal(env, id, description, start_time, end_time)`.
`auth a = true` models `a.require_auth()` succeeding; `now` is
`env.ledger().timestamp()`. -/
def create_proposal (auth : Nat → Bool) (now : Nat) (s : ContractState)
    (id : String) (description : String) (start_time end_time : Nat) : CallOut :=
  match s.admin with
  | none => .err s .ContractNotInitialized
  | some admin =>
    if ¬ auth admin then .authAbort s
    else
      match validate_proposal_times now start_time end_time with
      | some e => .err s e
      | none =>
        if (s.proposals id).isSome then .err s .ProposalAlreadyExists
        else
          .ok { s with
                proposals := fun j => if j = id then
                    some { description := description
                           start_time := start_time
                           end_time := end_time
                           total_for := 0
                           total_against := 0
                           total_abstain := 0 }
                  else s.proposals j,
                index := s.index ++ [id] }
            [(.Proposal id, calculate_proposal_ttl now end_time),
             (.Proposals, PROPOSALS_TTL_EXTENSION)]

/-- Choice dispatch of `vote` (the `if choice == VOTE_FOR … else … InvalidChoice`
chain): `some` of the proposal with the matching tally bumped by
`saturating_add(1)`, or `none` for any choice outside the three constants. -/
def applyChoice (proposal : TokenGatedVoteProposalData) (choice : String) :
    Option TokenGatedVoteProposalData :=
  if choice = VOTE_FOR then
    some { proposal with total_for := i128_saturating_add proposal.total_for 1 }
  else if choice = VOTE_AGAINST then
    some { proposal with total_against := i128_saturating_add proposal.total_against 1 }
  else if choice = VOTE_ABSTAIN then
    some { proposal with total_abstain := i128_saturating_add proposal.total_abstain 1 }
  else none

/-- `vote(env, user, id, choice)`.  `balance tok u` models
`TokenClient::new(env, tok).balance(u)`. -/
def vote (auth : Nat → Bool) (balance : Nat → Nat → Int) (now : Nat)
    (s : ContractState) (user : Nat) (id choice : String) : CallOut :=
  if ¬ auth user then .authAbort s
  else
    match s.proposals id with
    | none => .err s .ProposalNotFound
    | some proposal =>
      if now < proposal.start_time ∨ now > proposal.end_time then
        .err s .VotingNotActive
      else
        if (s.votes user id).isSome then .err s .UserAlreadyVoted
        else
          match s.token with
          | none => .err s .ContractNotInitialized
          | some token_address =>
            if balance token_address user ≤ 0 then .err s .UserCannotVote
            else
              match applyChoice proposal choice with
              | none => .err s .InvalidChoice
              | some proposal1 =>
                .ok { s with
                      proposals := fun j => if j = id then some proposal1 else s.proposals j,
                      votes := fun a => if a = user then
                          (fun j => if j = id then some true else s.votes user j)
                        else s.votes a }
                  [(.Proposal id, calculate_proposal_ttl now proposal1.end_time),
                   (.Votes user, VOTE_TTL_EXTENSION)]

/-- `transfer_admin(env, new_admin)`. -/
def transfer_admin (auth : Nat → Bool) (s : ContractState) (new_admin : Nat) : CallOut :=
  match s.admin with
  | none => .err s .ContractNotInitialized
  | some current_admin =>
    if ¬ auth current_admin then .authAbort s
    else .ok { s with admin := some new_admin } []

/-- `get_governance_details(env)`: summaries of all indexed proposals, in
index order, skipping ids whose proposal record is absent. -/
def get_governance_details (now : Nat) (s : ContractState) :
    List TokenGatedVoteProposalSummary :=
  s.index.foldl
    (fun acc id =>
      match s.proposals id with
      | some proposal =>
        acc ++ [{ id := id
                  description := proposal.description
                  status := compute_proposal_status now proposal }]
      | none => acc)
    []

/-- `get_proposal_details(env, id)`. -/
def get_proposal_details (s : ContractState) (id : String) :
    Except TokenGatedVoteContractErrors TokenGatedVoteProposalData :=
  match s.proposals id with
  | none => .error .ProposalNotFound
  | some proposal => .ok proposal

/-- `get_user_details(env, user)`: one `(id, hasVoted, votingPower)` tuple per
indexed proposal. -/
def get_user_details (balance : Nat → Nat → Int) (s : ContractState) (user : Nat) :
    Except TokenGatedVoteContractErrors (List (String × Bool × Int)) :=
  match s.token with
  | none => .error .ContractNotInitialized
  | some token_address =>
    .ok (s.index.foldl
      (fun acc id =>
        match s.votes user id with
        | some _ => acc ++ [(id, true, if balance token_address user > 0 then 1 else 0)]
        | none => acc ++ [(id, false, if balance token_address user > 0 then 1 else 0)])
      [])

/-- States reachable from a fresh deployment by the four write operations,
under arbitrary host authorization, balances and ledger times. -/
inductive Reachable : ContractState → Prop where
  | init : Reachable initialState
  | construct (s s' : ContractState) (a t : Nat)
      (evs : List (TokenGatedVoteContractDataKey × Nat)) :
      Reachable s → __constructor s a t = .ok s' evs → Reachable s'
  | create (auth : Nat → Bool) (now : Nat) (s s' : ContractState)
      (id d : String) (st et : Nat)
      (evs : List (TokenGatedVoteContractDataKey × Nat)) :
      Reachable s → create_proposal auth now s id d st et = .ok s' evs → Reachable s'
  | voteStep (auth : Nat → Bool) (balance : Nat → Nat → Int) (now : Nat)
      (s s' : ContractState) (user : Nat) (id choice : String)
      (evs : List (TokenGatedVoteContractDataKey × Nat)) :
      Reachable s → vote auth balance now s user id choice = .ok s' evs → Reachable s'
  | transfer (auth : Nat → Bool) (s s' : ContractState) (new_admin : Nat)
      (evs : List (TokenGatedVoteContractDataKey × Nat)) :
      Reachable s → transfer_admin auth s new_admin = .ok s' evs → Reachable s'

/-- Structural invariant of reachable storage states: the admin and token
records exist together, and every stored proposal satisfies the creation-time
timing bounds and carries tallies in the non-negative `i128` range. -/
def WF (s : ContractState) : Prop :=
  ((s.admin).isSome ↔ (s.token).isSome) ∧
  ∀ id p, s.proposals id = some p →
    (s.token).isSome ∧
    p.start_time < p.end_time ∧
    p.end_time - p.start_time ≤ MAX_PROPOSAL_DURATION ∧
    MIN_PROPOSAL_DURATION ≤ p.end_time - p.start_time ∧
    0 ≤ p.total_for ∧ p.total_for ≤ I128_MAX ∧
    0 ≤ p.total_against ∧ p.total_against ≤ I128_MAX ∧
    0 ≤ p.total_abstain ∧ p.total_abstain ≤ I128_MAX

/-- The proposal record created in the example trace below:
window [1000100, 1432100] (duration `MIN_PROPOSAL_DURATION`), all tallies 0. -/
def proposalP1 : TokenGatedVoteProposalData :=
  { description := "d", start_time := 1000100, end_time := 1432100,
    total_for := 0, total_against := 0, total_abstain := 0 }

/-- Storage after `__constructor(admin := 10, token := 20)` on a fresh
deployment. -/
def deployedState : ContractState :=
  { admin := some 10
    token := some 20
    proposals := fun _ => none
    index := []
    votes := fun _ _ => none }

/-- Storage after additionally creating proposal `"P1"` at ledger time
1000000. -/
def createdState : ContractState :=
  { admin := some 10
    token := some 20
    proposals := fun j => if j = "P1" then some proposalP1 else none
    index := ["P1"]
    votes := fun _ _ => none }

/-- Storage after additionally recording a FOR vote by user 7 at ledger time
1000200. -/
def votedState : ContractState :=
  { admin := some 10
    token := some 20
    proposals := fun j => if j = "P1" then
        some { description := "d", start_time := 1000100, end_time := 1432100,
               total_for := 1, total_against := 0, total_abstain := 0 }
      else (if j = "P1" then some proposalP1 else none)
    index := ["P1"]
    votes := fun a => if a = 7 then
        (fun j => if j = "P1" then some true else none)
      else (fun _ => none) }

/-! ## Basic lemmas: inversion of the write operations -/

theorem constructor_ok_inv {s s' : ContractState} {a t : Nat}
    {evs : List (TokenGatedVoteContractDataKey × Nat)}
    (h : __constructor s a t = .ok s' evs) :
    s.admin = none ∧ s' = { s with admin := some a, token := some t } ∧ evs = [] := by
  unfold __constructor at h
  split at h
  · exact CallOut.noConfusion h
  · next hn =>
    injection h with h1 h2
    exact ⟨Option.not_isSome_iff_eq_none.mp (by simpa using hn), h1.symm, h2.symm⟩

theorem create_ok_inv {auth : Nat → Bool} {now : Nat} {s s' : ContractState}
    {id d : String} {st et : Nat}
    {evs : List (TokenGatedVoteContractDataKey × Nat)}
    (h : create_proposal auth now s id d st et = .ok s' evs) :
    ∃ adm, s.admin = some adm ∧ auth adm = true ∧
      validate_proposal_times now st et = none ∧
      s.proposals id = none ∧
      s' = { s with
              proposals := fun j => if j = id then
                  some { description := d, start_time := st, end_time := et,
                         total_for := 0, total_against := 0, total_abstain := 0 }
                else s.proposals j,
              index := s.index ++ [id] } ∧
      evs = [(.Proposal id, calculate_proposal_ttl now et),
             (.Proposals, PROPOSALS_TTL_EXTENSION)] := by
  unfold create_proposal at h
  split at h
  · exact CallOut.noConfusion h
  · next adm hadm =>
    split at h
    · exact CallOut.noConfusion h
    · next hauth =>
      split at h
      · exact CallOut.noConfusion h
      · next hval =>
        split at h
        · exact CallOut.noConfusion h
        · next hex =>
          injection h with h1 h2
          refine ⟨adm, hadm, by simpa using hauth, hval, ?_, h1.symm, h2.symm⟩
          simpa using hex

theorem vote_ok_inv {auth : Nat → Bool} {balance : Nat → Nat → Int} {now : Nat}
    {s s' : ContractState} {user : Nat} {id choice : String}
    {evs : List (TokenGatedVoteContractDataKey × Nat)}
    (h : vote auth balance now s user id choice = .ok s' evs) :
    auth user = true ∧
    ∃ p, s.proposals id = some p ∧
      p.start_time ≤ now ∧ now ≤ p.end_time ∧
      s.votes user id = none ∧
      ∃ tok, s.token = some tok ∧ 0 < balance tok user ∧
      ∃ p1, applyChoice p choice = some p1 ∧
        s' = { s with
                proposals := fun j => if j = id then some p1 else s.proposals j,
                votes := fun a => if a = user then
                    (fun j => if j = id then some true else s.votes user j)
                  else s.votes a } ∧
        evs = [(.Proposal id, calculate_proposal_ttl now p1.end_time),
               (.Votes user, VOTE_TTL_EXTENSION)] := by
  unfold vote at h
  split at h
  · exact CallOut.noConfusion h
  · next hauth =>
    split at h
    · exact CallOut.noConfusion h
    · next p hp =>
      split at h
      · exact CallOut.noConfusion h
      · next hwin =>
        split at h
        · exact CallOut.noConfusion h
        · next hvoted =>
          split at h
          · exact CallOut.noConfusion h
          · next tok htok =>
            split at h
            · exact CallOut.noConfusion h
            · next hbal =>
              split at h
              · exact CallOut.noConfusion h
              · next p1 hp1 =>
                injection h with h1 h2
                push_neg at hwin
                refine ⟨by simpa using hauth, p, hp, hwin.1, hwin.2, ?_, tok, htok,
                  by omega, p1, hp1, h1.symm, h2.symm⟩
                simpa using hvoted

theorem transfer_ok_inv {auth : Nat → Bool} {s s' : ContractState} {new_admin : Nat}
    {evs : List (TokenGatedVoteContractDataKey × Nat)}
    (h : transfer_admin auth s new_admin = .ok s' evs) :
    ∃ adm, s.admin = some adm ∧ auth adm = true ∧
      s' = { s with admin := some new_admin } ∧ evs = [] := by
  unfold transfer_admin at h
  split at h
  · exact CallOut.noConfusion h
  · next adm hadm =>
    split at h
    · exact CallOut.noConfusion h
    · next hauth =>
      injection h with h1 h2
      exact ⟨adm, hadm, by simpa using hauth, h1.symm, h2.symm⟩

theorem validate_none_inv {now st et : Nat}
    (h : validate_proposal_times now st et = none) :
    st < et ∧ now ≤ st ∧ et - st ≤ MAX_PROPOSAL_DURATION ∧
      MIN_PROPOSAL_DURATION ≤ et - st := by
  unfold validate_proposal_times at h
  split_ifs at h
  omega

theorem i128_saturating_add_one_bounds {a : Int} (h0 : 0 ≤ a) (h1 : a ≤ I128_MAX) :
    a ≤ i128_saturating_add a 1 ∧ 0 ≤ i128_saturating_add a 1 ∧
      i128_saturating_add a 1 ≤ I128_MAX := by
  unfold i128_saturating_add I128_MAX I128_MIN at *
  omega

theorem applyChoice_some_inv {p p1 : TokenGatedVoteProposalData} {c : String}
    (h : applyChoice p c = some p1) :
    p1.description = p.description ∧ p1.start_time = p.start_time ∧
    p1.end_time = p.end_time ∧
    ((c = VOTE_FOR ∧ p1.total_for = i128_saturating_add p.total_for 1 ∧
        p1.total_against = p.total_against ∧ p1.total_abstain = p.total_abstain) ∨
     (c = VOTE_AGAINST ∧ p1.total_for = p.total_for ∧
        p1.total_against = i128_saturating_add p.total_against 1 ∧
        p1.total_abstain = p.total_abstain) ∨
     (c = VOTE_ABSTAIN ∧ p1.total_for = p.total_for ∧
        p1.total_against = p.total_against ∧
        p1.total_abstain = i128_saturating_add p.total_abstain 1)) := by
  unfold applyChoice at h
  split_ifs at h with hf ha hb
  · injection h with h1; subst h1; simp [hf]
  · injection h with h1; subst h1; simp [ha]
  · injection h with h1; subst h1; simp [hb]

theorem reachable_wf {s : ContractState} (h : Reachable s) : WF s := by
  induction h with
  | init =>
    refine ⟨by simp [initialState], fun id p hp => ?_⟩
    simp [initialState] at hp
  | construct s s' a t evs _ hok ih =>
    obtain ⟨hadm, rfl, -⟩ := constructor_ok_inv hok
    refine ⟨by simp, fun id p hp => ?_⟩
    have := ih.2 id p hp
    simp_all
  | create auth now s s' id d st et evs _ hok ih =>
    obtain ⟨adm, hadm, -, hval, hnone, rfl, -⟩ := create_ok_inv hok
    obtain ⟨h1, h2, h3, h4⟩ := validate_none_inv hval
    have htok : (s.token).isSome := ih.1.mp (by simp [hadm])
    refine ⟨ih.1, fun id' p hp => ?_⟩
    simp only at hp
    by_cases hid : id' = id
    · subst hid
      simp only [if_pos rfl] at hp
      injection hp with hp
      subst hp
      refine ⟨htok, by simpa using h1, by simpa using h3, by simpa using h4, ?_⟩
      norm_num [I128_MAX]
    · simp only [if_neg hid] at hp
      exact ih.2 id' p hp
  | voteStep auth balance now s s' user id choice evs _ hok ih =>
    obtain ⟨-, p, hp, -, -, -, tok, htok, -, p1, hp1, rfl, -⟩ := vote_ok_inv hok
    obtain ⟨hwf1, hwf2, hwf3, hwf4, hf0, hf1, ha0, ha1, hb0, hb1⟩ := ih.2 id p hp
    obtain ⟨-, hst, het, hupd⟩ := applyChoice_some_inv hp1
    refine ⟨ih.1, fun id' q hq => ?_⟩
    simp only at hq
    by_cases hid : id' = id
    · subst hid
      simp only [if_pos rfl] at hq
      injection hq with hq
      subst hq
      refine ⟨hwf1, by rw [hst, het]; exact hwf2, by rw [hst, het]; exact hwf3,
        by rw [hst, het]; exact hwf4, ?_⟩
      rcases hupd with ⟨-, e1, e2, e3⟩ | ⟨-, e1, e2, e3⟩ | ⟨-, e1, e2, e3⟩ <;>
        rw [e1, e2, e3] <;>
        first
        | exact ⟨(i128_saturating_add_one_bounds hf0 hf1).2.1,
            (i128_saturating_add_one_bounds hf0 hf1).2.2, ha0, ha1, hb0, hb1⟩
        | exact ⟨hf0, hf1, (i128_saturating_add_one_bounds ha0 ha1).2.1,
            (i128_saturating_add_one_bounds ha0 ha1).2.2, hb0, hb1⟩
        | exact ⟨hf0, hf1, ha0, ha1, (i128_saturating_add_one_bounds hb0 hb1).2.1,
            (i128_saturating_add_one_bounds hb0 hb1).2.2⟩
    · simp only [if_neg hid] at hq
      exact ih.2 id' q hq
  | transfer auth s s' new_admin evs _ hok ih =>
    obtain ⟨adm, hadm, -, rfl, -⟩ := transfer_ok_inv hok
    have htok : (s.token).isSome := ih.1.mp (by simp [hadm])
    refine ⟨by simp [htok], fun id p hp => ?_⟩
    have := ih.2 id p hp
    simpa using this

theorem constructor_err_inv {s s' : ContractState} {a t : Nat}
    {e : TokenGatedVoteContractErrors}
    (h : __constructor s a t = .err s' e) :
    s' = s ∧ e = .ContractAlreadyInitialized ∧ (s.admin).isSome := by
  unfold __constructor at h
  split at h
  · next hn => injection h with h1 h2; exact ⟨h1.symm, h2.symm, hn⟩
  · exact CallOut.noConfusion h

theorem transfer_err_inv {auth : Nat → Bool} {s s' : ContractState} {new_admin : Nat}
    {e : TokenGatedVoteContractErrors}
    (h : transfer_admin auth s new_admin = .err s' e) :
    s' = s ∧ s.admin = none ∧ e = .ContractNotInitialized := by
  unfold transfer_admin at h
  split at h
  · next hn => injection h with h1 h2; exact ⟨h1.symm, hn, h2.symm⟩
  · split at h
    · exact CallOut.noConfusion h
    · exact CallOut.noConfusion h

theorem create_err_inv {auth : Nat → Bool} {now : Nat} {s s' : ContractState}
    {id d : String} {st et : Nat} {e : TokenGatedVoteContractErrors}
    (h : create_proposal auth now s id d st et = .err s' e) :
    s' = s ∧
    ((s.admin = none ∧ e = .ContractNotInitialized) ∨
     ∃ adm, s.admin = some adm ∧ auth adm = true ∧
       (validate_proposal_times now st et = some e ∨
        (validate_proposal_times now st et = none ∧ (s.proposals id).isSome ∧
         e = .ProposalAlreadyExists))) := by
  unfold create_proposal at h
  split at h
  · next hn => injection h with h1 h2; exact ⟨h1.symm, Or.inl ⟨hn, h2.symm⟩⟩
  · next adm hadm =>
    split at h
    · exact CallOut.noConfusion h
    · next hauth =>
      split at h
      · next e' hval =>
        injection h with h1 h2
        exact ⟨h1.symm, Or.inr ⟨adm, hadm, by simpa using hauth, Or.inl (h2 ▸ hval)⟩⟩
      · next hval =>
        split at h
        · next hex =>
          injection h with h1 h2
          exact ⟨h1.symm, Or.inr ⟨adm, hadm, by simpa using hauth,
            Or.inr ⟨hval, hex, h2.symm⟩⟩⟩
        · exact CallOut.noConfusion h

theorem vote_err_inv {auth : Nat → Bool} {balance : Nat → Nat → Int} {now : Nat}
    {s s' : ContractState} {user : Nat} {id choice : String}
    {e : TokenGatedVoteContractErrors}
    (h : vote auth balance now s user id choice = .err s' e) :
    s' = s ∧ auth user = true ∧
    ((s.proposals id = none ∧ e = .ProposalNotFound) ∨
     ∃ p, s.proposals id = some p ∧
       (((now < p.start_time ∨ now > p.end_time) ∧ e = .VotingNotActive) ∨
        (p.start_time ≤ now ∧ now ≤ p.end_time ∧
         (((s.votes user id).isSome ∧ e = .UserAlreadyVoted) ∨
          (s.votes user id = none ∧
           ((s.token = none ∧ e = .ContractNotInitialized) ∨
            ∃ tok, s.token = some tok ∧
              ((balance tok user ≤ 0 ∧ e = .UserCannotVote) ∨
               (0 < balance tok user ∧ applyChoice p choice = none ∧
                e = .InvalidChoice)))))))) := by
  unfold vote at h
  split at h
  · exact CallOut.noConfusion h
  · next hauth =>
    have hauth' : auth user = true := by simpa using hauth
    split at h
    · next hp =>
      injection h with h1 h2
      exact ⟨h1.symm, hauth', Or.inl ⟨hp, h2.symm⟩⟩
    · next p hp =>
      split at h
      · next hwin =>
        injection h with h1 h2
        exact ⟨h1.symm, hauth', Or.inr ⟨p, hp, Or.inl ⟨hwin, h2.symm⟩⟩⟩
      · next hwin =>
        push_neg at hwin
        split at h
        · next hv =>
          injection h with h1 h2
          exact ⟨h1.symm, hauth', Or.inr ⟨p, hp, Or.inr ⟨hwin.1, hwin.2,
            Or.inl ⟨hv, h2.symm⟩⟩⟩⟩
        · next hv =>
          have hv' : s.votes user id = none := by simpa using hv
          split at h
          · next htok =>
            injection h with h1 h2
            exact ⟨h1.symm, hauth', Or.inr ⟨p, hp, Or.inr ⟨hwin.1, hwin.2,
              Or.inr ⟨hv', Or.inl ⟨htok, h2.symm⟩⟩⟩⟩⟩
          · next tok htok =>
            split at h
            · next hbal =>
              injection h with h1 h2
              exact ⟨h1.symm, hauth', Or.inr ⟨p, hp, Or.inr ⟨hwin.1, hwin.2,
                Or.inr ⟨hv', Or.inr ⟨tok, htok, Or.inl ⟨hbal, h2.symm⟩⟩⟩⟩⟩⟩
            · next hbal =>
              split at h
              · next hch =>
                injection h with h1 h2
                exact ⟨h1.symm, hauth', Or.inr ⟨p, hp, Or.inr ⟨hwin.1, hwin.2,
                  Or.inr ⟨hv', Or.inr ⟨tok, htok, Or.inr ⟨by omega, hch, h2.symm⟩⟩⟩⟩⟩⟩
              · exact CallOut.noConfusion h

theorem user_details_foldl (votes : String → Option Bool) (vp : Int)
    (l : List String) :
    ∀ acc : List (String × Bool × Int),
      (l.foldl (fun acc id =>
        match votes id with
        | some _ => acc ++ [(id, true, vp)]
        | none => acc ++ [(id, false, vp)]) acc)
      = acc ++ l.map (fun id => (id, (votes id).isSome, vp)) := by
  induction l with
  | nil => intro acc; simp
  | cons a l ih =>
    intro acc
    cases h : votes a <;> simp [List.foldl_cons, h, ih]

theorem vote_proposal_not_found {auth : Nat → Bool} {balance : Nat → Nat → Int}
    {now : Nat} {s : ContractState} {user : Nat} {id choice : String}
    (hauth : auth user = true) (hp : s.proposals id = none) :
    vote auth balance now s user id choice = .err s .ProposalNotFound := by
  unfold vote
  simp [hauth, hp]

theorem vote_voting_not_active {auth : Nat → Bool} {balance : Nat → Nat → Int}
    {now : Nat} {s : ContractState} {user : Nat} {id choice : String}
    {p : TokenGatedVoteProposalData}
    (hauth : auth user = true) (hp : s.proposals id = some p)
    (hwin : now < p.start_time ∨ now > p.end_time) :
    vote auth balance now s user id choice = .err s .VotingNotActive := by
  unfold vote
  simp [hauth, hp, hwin]

theorem vote_already_voted {auth : Nat → Bool} {balance : Nat → Nat → Int}
    {now : Nat} {s : ContractState} {user : Nat} {id choice : String}
    {p : TokenGatedVoteProposalData}
    (hauth : auth user = true) (hp : s.proposals id = some p)
    (h1 : p.start_time ≤ now) (h2 : now ≤ p.end_time)
    (hv : (s.votes user id).isSome) :
    vote auth balance now s user id choice = .err s .UserAlreadyVoted := by
  unfold vote
  simp [hauth, hp, hv]
  omega


theorem vote_cannot_vote {auth : Nat → Bool} {balance : Nat → Nat → Int}
    {now : Nat} {s : ContractState} {user : Nat} {id choice : String}
    {p : TokenGatedVoteProposalData} {tok : Nat}
    (hauth : auth user = true) (hp : s.proposals id = some p)
    (h1 : p.start_time ≤ now) (h2 : now ≤ p.end_time)
    (hv : s.votes user id = none) (htok : s.token = some tok)
    (hbal : balance tok user ≤ 0) :
    vote auth balance now s user id choice = .err s .UserCannotVote := by
  unfold vote
  simp [hauth, hp, hv, htok, hbal]
  omega

theorem vote_invalid_choice {auth : Nat → Bool} {balance : Nat → Nat → Int}
    {now : Nat} {s : ContractState} {user : Nat} {id choice : String}
    {p : TokenGatedVoteProposalData} {tok : Nat}
    (hauth : auth user = true) (hp : s.proposals id = some p)
    (h1 : p.start_time ≤ now) (h2 : now ≤ p.end_time)
    (hv : s.votes user id = none) (htok : s.token = some tok)
    (hbal : 0 < balance tok user) (hch : applyChoice p choice = none) :
    vote auth balance now s user id choice = .err s .InvalidChoice := by
  unfold vote
  simp [hauth, hp, hv, htok, hch]
  rw [if_neg (by omega), if_neg (by omega)]

/-- C2: for a stored proposal and an authorized caller, `vote` fails with
`VotingNotActive` exactly when `now < start_time` or `now > end_time` (so a
vote at `start_time` or `end_time` passes the window check), and the derived
status is `Pending` iff `now < start_time`, `Active` iff
`start_time ≤ now ≤ end_time`, and `Ended` iff `now > end_time`. -/
theorem claim_C2 {auth : Nat → Bool} {balance : Nat → Nat → Int} {now : Nat}
    {s : ContractState} {user : Nat} {id choice : String}
    {p : TokenGatedVoteProposalData}
    (hauth : auth user = true) (hp : s.proposals id = some p)
    (hse : p.start_time ≤ p.end_time) :
    (vote auth balance now s user id choice = .err s .VotingNotActive ↔
      (now < p.start_time ∨ now > p.end_time)) ∧
    (compute_proposal_status now p = .Pending ↔ now < p.start_time) ∧
    (compute_proposal_status now p = .Active ↔
      (p.start_time ≤ now ∧ now ≤ p.end_time)) ∧
    (compute_proposal_status now p = .Ended ↔ now > p.end_time) := by
  refine ⟨⟨fun h => ?_, fun hwin => vote_voting_not_active hauth hp hwin⟩, ?_, ?_, ?_⟩
  · obtain ⟨-, -, hcases⟩ := vote_err_inv h
    rcases hcases with ⟨hnone, -⟩ | ⟨q, hq, hcases⟩
    · rw [hp] at hnone; exact Option.noConfusion hnone
    · rw [hp] at hq
      injection hq with hq
      subst hq
      rcases hcases with ⟨hwin, -⟩ | ⟨-, -, hcases⟩
      · exact hwin
      · rcases hcases with ⟨-, he⟩ | ⟨-, hcases⟩
        · exact absurd he (by decide)
        · rcases hcases with ⟨-, he⟩ | ⟨tok, -, hcases⟩
          · exact absurd he (by decide)
          · rcases hcases with ⟨-, he⟩ | ⟨-, -, he⟩ <;> exact absurd he (by decide)
  all_goals unfold compute_proposal_status
  all_goals split_ifs with h1 h2 <;> simp <;> omega



/-- C3: the checks of `vote` run in the fixed order lookup, window,
idempotency, eligibility, choice validity; the first failing check determines
the error.  The idempotency conjunct is quantified over the balance oracle,
so `UserAlreadyVoted` is reported no matter what any balance query would
return. -/
theorem claim_C3 {auth : Nat → Bool} {now : Nat} {s : ContractState}
    {user : Nat} {id choice : String}
    (hauth : auth user = true) :
    (∀ balance, s.proposals id = none →
      vote auth balance now s user id choice = .err s .ProposalNotFound) ∧
    (∀ balance p, s.proposals id = some p →
      (now < p.start_time ∨ now > p.end_time) →
      vote auth balance now s user id choice = .err s .VotingNotActive) ∧
    (∀ balance p, s.proposals id = some p →
      p.start_time ≤ now → now ≤ p.end_time → (s.votes user id).isSome →
      vote auth balance now s user id choice = .err s .UserAlreadyVoted) ∧
    (∀ balance p tok, s.proposals id = some p →
      p.start_time ≤ now → now ≤ p.end_time → s.votes user id = none →
      s.token = some tok → balance tok user ≤ 0 →
      vote auth balance now s user id choice = .err s .UserCannotVote) ∧
    (∀ balance p tok, s.proposals id = some p →
      p.start_time ≤ now → now ≤ p.end_time → s.votes user id = none →
      s.token = some tok → 0 < balance tok user → applyChoice p choice = none →
      vote auth balance now s user id choice = .err s .InvalidChoice) :=
  ⟨fun _ hp => vote_proposal_not_found hauth hp,
   fun _ _ hp hwin => vote_voting_not_active hauth hp hwin,
   fun _ _ hp h1 h2 hv => vote_already_voted hauth hp h1 h2 hv,
   fun _ _ _ hp h1 h2 hv htok hbal => vote_cannot_vote hauth hp h1 h2 hv htok hbal,
   fun _ _ _ hp h1 h2 hv htok hbal hch =>
     vote_invalid_choice hauth hp h1 h2 hv htok hbal hch⟩

/-- C5: `create_proposal`'s timing validation runs its four checks in the
fixed order (start≥end, start<now, too-long, too-short); each error is
returned exactly when its check is the first to fail, `create_proposal`
propagates the first such error, and `ProposalAlreadyExists` is reported only
when all four timing checks pass. -/
theorem claim_C5 {auth : Nat → Bool} {now : Nat} {s : ContractState}
    {id d : String} {st et : Nat} {adm : Nat}
    (hadm : s.admin = some adm) (hauth : auth adm = true) :
    (validate_proposal_times now st et = some .StartTimeAfterEnd ↔ st ≥ et) ∧
    (validate_proposal_times now st et = some .StartTimeInPast ↔
      (st < et ∧ st < now)) ∧
    (validate_proposal_times now st et = some .DurationTooLong ↔
      (st < et ∧ now ≤ st ∧ MAX_PROPOSAL_DURATION < et - st)) ∧
    (validate_proposal_times now st et = some .DurationTooShort ↔
      (st < et ∧ now ≤ st ∧ et - st ≤ MAX_PROPOSAL_DURATION ∧
       et - st < MIN_PROPOSAL_DURATION)) ∧
    (∀ e, validate_proposal_times now st et = some e →
      create_proposal auth now s id d st et = .err s e) ∧
    (create_proposal auth now s id d st et = .err s .ProposalAlreadyExists ↔
      (validate_proposal_times now st et = none ∧ (s.proposals id).isSome)) := by
  refine ⟨?_, ?_, ?_, ?_, fun e he => ?_, ⟨fun h => ?_, fun ⟨hval, hex⟩ => ?_⟩⟩
  · unfold validate_proposal_times
    split_ifs <;> simp <;> omega
  · unfold validate_proposal_times
    split_ifs <;> simp <;> omega
  · unfold validate_proposal_times
    split_ifs <;> simp <;> omega
  · unfold validate_proposal_times
    split_ifs <;> simp <;> omega
  · unfold create_proposal
    simp [hadm, hauth, he]
  · obtain ⟨-, hcases⟩ := create_err_inv h
    rcases hcases with ⟨hnone, -⟩ | ⟨adm', -, -, hval | ⟨hval, hex, -⟩⟩
    · rw [hadm] at hnone; exact Option.noConfusion hnone
    · unfold validate_proposal_times at hval
      split_ifs at hval <;> simp_all
    · exact ⟨hval, hex⟩
  · unfold create_proposal
    simp [hadm, hauth, hval, hex]

/-- C6: initialization is once-only: the constructor fails with
`ContractAlreadyInitialized` iff an admin record already exists, such a
failure leaves the state untouched, and otherwise both the admin and the
governance-token address are stored. -/
theorem claim_C6 {s : ContractState} {a t : Nat} :
    ((__constructor s a t).errOf = some .ContractAlreadyInitialized ↔
      (s.admin).isSome) ∧
    (∀ s' e, __constructor s a t = .err s' e →
      s' = s ∧ e = .ContractAlreadyInitialized) ∧
    (s.admin = none →
      __constructor s a t = .ok { s with admin := some a, token := some t } []) := by
  refine ⟨⟨fun h => ?_, fun h => ?_⟩, fun s' e h => ?_, fun h => ?_⟩
  · by_cases hadm : (s.admin).isSome
    · exact hadm
    · simp [__constructor, hadm, CallOut.errOf] at h
  · simp [__constructor, h, CallOut.errOf]
  · obtain ⟨h1, h2, -⟩ := constructor_err_inv h
    exact ⟨h1, h2⟩
  · simp [__constructor, h]

theorem create_authAbort_inv {auth : Nat → Bool} {now : Nat}
    {s s'' : ContractState} {id d : String} {st et : Nat}
    (h : create_proposal auth now s id d st et = .authAbort s'') :
    s'' = s ∧ ∃ adm, s.admin = some adm ∧ auth adm = false := by
  unfold create_proposal at h
  split at h
  · exact CallOut.noConfusion h
  · next adm hadm =>
    split at h
    · next hn =>
      injection h with h1
      exact ⟨h1.symm, adm, hadm, by simpa using hn⟩
    · split at h
      · exact CallOut.noConfusion h
      · split at h <;> exact CallOut.noConfusion h

/-- C9: `transfer_admin` fails with `ContractNotInitialized` exactly when no
admin record exists (changing nothing); on success it replaces only the admin
address, and the replacement is effective immediately: the next
`create_proposal` or `transfer_admin` authorizes against the new admin. -/
theorem claim_C9 {auth : Nat → Bool} {s : ContractState} {new_admin : Nat} :
    (s.admin = none →
      transfer_admin auth s new_admin = .err s .ContractNotInitialized) ∧
    (∀ s' e, transfer_admin auth s new_admin = .err s' e →
      s' = s ∧ s.admin = none ∧ e = .ContractNotInitialized) ∧
    (∀ adm, s.admin = some adm → auth adm = true →
      transfer_admin auth s new_admin = .ok { s with admin := some new_admin } [] ∧
      (∀ auth2 now2 id d st et, auth2 new_admin = false →
        create_proposal auth2 now2 { s with admin := some new_admin } id d st et =
          .authAbort { s with admin := some new_admin }) ∧
      (∀ auth2 new2, auth2 new_admin = false →
        transfer_admin auth2 { s with admin := some new_admin } new2 =
          .authAbort { s with admin := some new_admin }) ∧
      (∀ auth2 now2 id d st et s'', auth2 new_admin = true →
        create_proposal auth2 now2 { s with admin := some new_admin } id d st et ≠
          .authAbort s'')) := by
  refine ⟨fun h => ?_, fun s' e h => transfer_err_inv h, fun adm hadm hauth => ?_⟩
  · unfold transfer_admin
    simp [h]
  · refine ⟨?_, fun auth2 now2 id d st et h2 => ?_, fun auth2 new2 h2 => ?_,
      fun auth2 now2 id d st et s'' h2 => ?_⟩
    · unfold transfer_admin
      simp [hadm, hauth]
    · unfold create_proposal
      simp [h2]
    · unfold transfer_admin
      simp [h2]
    · intro hcon
      obtain ⟨-, adm2, hadm2, hfalse⟩ := create_authAbort_inv hcon
      injection hadm2 with hadm2
      rw [hadm2] at h2
      rw [h2] at hfalse
      exact Bool.noConfusion hfalse

/-- C10: `get_user_details` returns exactly one `(id, hasVoted, votingPower)`
tuple per entry of the proposal index, in index order, independent of whether
the proposal data record exists, and the `votingPower` component is the same
single balance-derived value (1 if the balance is positive, else 0) in every
tuple. -/
theorem claim_C10 {balance : Nat → Nat → Int} {s : ContractState} {user tok : Nat}
    (htok : s.token = some tok) :
    get_user_details balance s user =
      .ok (s.index.map fun id =>
        (id, (s.votes user id).isSome,
         if balance tok user > 0 then (1 : Int) else 0)) ∧
    (∀ ps2, get_user_details balance { s with proposals := ps2 } user =
      get_user_details balance s user) ∧
    (∀ l, get_user_details balance s user = .ok l →
      l.length = s.index.length ∧
      ∀ x ∈ l, x.2.2 = (if balance tok user > 0 then (1 : Int) else 0)) := by
  have hmain : get_user_details balance s user =
      .ok (s.index.map fun id =>
        (id, (s.votes user id).isSome,
         if balance tok user > 0 then (1 : Int) else 0)) := by
    simp only [get_user_details, htok]
    rw [user_details_foldl (s.votes user)
      (if balance tok user > 0 then (1 : Int) else 0) s.index []]
    simp
  refine ⟨hmain, fun ps2 => rfl, fun l hl => ?_⟩
  rw [hmain] at hl
  injection hl with hl
  subst hl
  constructor
  · simp
  · intro x hx
    simp only [List.mem_map] at hx
    obtain ⟨i, -, rfl⟩ := hx
    rfl

/-- C4: atomicity — whenever `__constructor`, `create_proposal`, `vote` or
`transfer_admin` returns an engine error, the storage state carried at that
return point is exactly the pre-call state; on success the operation's writes
are all present in the post-state. -/
theorem claim_C4 {auth : Nat → Bool} {balance : Nat → Nat → Int} {now : Nat}
    {s : ContractState} :
    (∀ a t s' e, __constructor s a t = .err s' e → s' = s) ∧
    (∀ id d st et s' e, create_proposal auth now s id d st et = .err s' e → s' = s) ∧
    (∀ user id choice s' e, vote auth balance now s user id choice = .err s' e → s' = s) ∧
    (∀ new_admin s' e, transfer_admin auth s new_admin = .err s' e → s' = s) ∧
    (∀ a t s' evs, __constructor s a t = .ok s' evs →
      s'.admin = some a ∧ s'.token = some t) ∧
    (∀ id d st et s' evs, create_proposal auth now s id d st et = .ok s' evs →
      s'.proposals id = some { description := d, start_time := st, end_time := et,
                               total_for := 0, total_against := 0, total_abstain := 0 } ∧
      s'.index = s.index ++ [id]) ∧
    (∀ user id choice s' evs, vote auth balance now s user id choice = .ok s' evs →
      s'.votes user id = some true ∧
      ∃ p p1, s.proposals id = some p ∧ applyChoice p choice = some p1 ∧
        s'.proposals id = some p1) ∧
    (∀ new_admin s' evs, transfer_admin auth s new_admin = .ok s' evs →
      s'.admin = some new_admin ∧ s'.token = s.token ∧
      s'.proposals = s.proposals ∧ s'.index = s.index ∧ s'.votes = s.votes) := by
  refine ⟨fun a t s' e h => (constructor_err_inv h).1,
    fun id d st et s' e h => (create_err_inv h).1,
    fun user id choice s' e h => (vote_err_inv h).1,
    fun new_admin s' e h => (transfer_err_inv h).1,
    fun a t s' evs h => ?_, fun id d st et s' evs h => ?_,
    fun user id choice s' evs h => ?_, fun new_admin s' evs h => ?_⟩
  · obtain ⟨-, rfl, -⟩ := constructor_ok_inv h
    exact ⟨rfl, rfl⟩
  · obtain ⟨adm, -, -, -, -, rfl, -⟩ := create_ok_inv h
    exact ⟨by simp, rfl⟩
  · obtain ⟨-, p, hp, -, -, -, tok, -, -, p1, hp1, rfl, -⟩ := vote_ok_inv h
    exact ⟨by simp, p, p1, hp, hp1, by simp⟩
  · obtain ⟨adm, -, -, rfl, -⟩ := transfer_ok_inv h
    exact ⟨rfl, rfl, rfl, rfl, rfl⟩

/-- C7: from any reachable storage state, the only engine errors `vote` can
return are `ProposalNotFound`, `VotingNotActive`, `UserAlreadyVoted`,
`UserCannotVote` and `InvalidChoice`; in particular the
`ContractNotInitialized` return on the token lookup is dead code on reachable
states. -/
theorem claim_C7 {auth : Nat → Bool} {balance : Nat → Nat → Int} {now : Nat}
    {s s' : ContractState} {user : Nat} {id choice : String}
    {e : TokenGatedVoteContractErrors}
    (hs : Reachable s)
    (h : vote auth balance now s user id choice = .err s' e) :
    e = .ProposalNotFound ∨ e = .VotingNotActive ∨ e = .UserAlreadyVoted ∨
      e = .UserCannotVote ∨ e = .InvalidChoice := by
  obtain ⟨-, -, hcases⟩ := vote_err_inv h
  rcases hcases with ⟨-, rfl⟩ | ⟨p, hp, hcases⟩
  · exact Or.inl rfl
  rcases hcases with ⟨-, rfl⟩ | ⟨-, -, hcases⟩
  · exact Or.inr (Or.inl rfl)
  rcases hcases with ⟨-, rfl⟩ | ⟨-, hcases⟩
  · exact Or.inr (Or.inr (Or.inl rfl))
  rcases hcases with ⟨htok, -⟩ | ⟨tok, -, hcases⟩
  · have := ((reachable_wf hs).2 id p hp).1
    rw [htok] at this
    exact Bool.noConfusion this
  rcases hcases with ⟨-, rfl⟩ | ⟨-, -, rfl⟩
  · exact Or.inr (Or.inr (Or.inr (Or.inl rfl)))
  · exact Or.inr (Or.inr (Or.inr (Or.inr rfl)))

theorem deployedState_reachable : Reachable deployedState :=
  Reachable.construct initialState deployedState 10 20 [] Reachable.init rfl

theorem createdState_reachable : Reachable createdState :=
  Reachable.create (fun _ => true) 1000000 deployedState createdState "P1" "d"
    1000100 1432100 _ deployedState_reachable rfl

theorem votedState_reachable : Reachable votedState :=
  Reachable.voteStep (fun _ => true) (fun _ _ => 1) 1000200 createdState
    votedState 7 "P1" VOTE_FOR _ createdState_reachable rfl



/-- C1 (amended): on reachable states, a user whose vote record already marks
a proposal can never have another vote accepted on it, and gets
`UserAlreadyVoted` whenever the lookup and window checks pass; all stored
tallies are non-negative; an accepted vote marks the voter and bumps exactly
the chosen tally by a saturating `+1`, leaving the other tallies, all other
proposals, and the non-negativity and monotonicity of every tally intact;
and no other operation changes any existing tally. -/
theorem claim_C1 {auth : Nat → Bool} {balance : Nat → Nat → Int} {now : Nat}
    {s : ContractState} {user : Nat} {id choice : String}
    (hs : Reachable s) :
    ((s.votes user id).isSome →
      ∀ s' evs, vote auth balance now s user id choice ≠ .ok s' evs) ∧
    (∀ p, s.proposals id = some p → p.start_time ≤ now → now ≤ p.end_time →
      (s.votes user id).isSome → auth user = true →
      vote auth balance now s user id choice = .err s .UserAlreadyVoted) ∧
    (∀ id2 p, s.proposals id2 = some p →
      0 ≤ p.total_for ∧ 0 ≤ p.total_against ∧ 0 ≤ p.total_abstain) ∧
    (∀ s' evs, vote auth balance now s user id choice = .ok s' evs →
      s'.votes user id = some true ∧
      (∀ j, j ≠ id → s'.proposals j = s.proposals j) ∧
      ∃ p p1, s.proposals id = some p ∧ s'.proposals id = some p1 ∧
        ((choice = VOTE_FOR ∧ p1.total_for = i128_saturating_add p.total_for 1 ∧
           p1.total_against = p.total_against ∧ p1.total_abstain = p.total_abstain) ∨
         (choice = VOTE_AGAINST ∧ p1.total_for = p.total_for ∧
           p1.total_against = i128_saturating_add p.total_against 1 ∧
           p1.total_abstain = p.total_abstain) ∨
         (choice = VOTE_ABSTAIN ∧ p1.total_for = p.total_for ∧
           p1.total_against = p.total_against ∧
           p1.total_abstain = i128_saturating_add p.total_abstain 1)) ∧
        p.total_for ≤ p1.total_for ∧ p.total_against ≤ p1.total_against ∧
        p.total_abstain ≤ p1.total_abstain ∧
        0 ≤ p1.total_for ∧ 0 ≤ p1.total_against ∧ 0 ≤ p1.total_abstain) ∧
    (∀ a t s' evs, __constructor s a t = .ok s' evs → s'.proposals = s.proposals) ∧
    (∀ id2 d st et s' evs, create_proposal auth now s id2 d st et = .ok s' evs →
      ∀ j q, s.proposals j = some q → s'.proposals j = some q) ∧
    (∀ new_admin s' evs, transfer_admin auth s new_admin = .ok s' evs →
      s'.proposals = s.proposals) := by
  have hwf := reachable_wf hs
  refine ⟨fun hv s' evs hok => ?_, fun p hp h1 h2 hv hauth => ?_,
    fun id2 p hp => ?_, fun s' evs hok => ?_,
    fun a t s' evs hok => ?_, fun id2 d st et s' evs hok => ?_,
    fun new_admin s' evs hok => ?_⟩
  · obtain ⟨-, q, -, -, -, hnone, -⟩ := vote_ok_inv hok
    rw [hnone] at hv
    exact Bool.noConfusion hv
  · exact vote_already_voted hauth hp h1 h2 hv
  · obtain ⟨-, -, -, -, h5, -, h7, -, h9, -⟩ := hwf.2 id2 p hp
    exact ⟨h5, h7, h9⟩
  · obtain ⟨-, p, hp, -, -, -, tok, -, -, p1, hp1, rfl, -⟩ := vote_ok_inv hok
    obtain ⟨-, -, -, -, hf0, hf1, ha0, ha1, hb0, hb1⟩ := hwf.2 id p hp
    obtain ⟨-, -, -, hupd⟩ := applyChoice_some_inv hp1
    refine ⟨by simp, fun j hj => by simp [hj], p, p1, hp, by simp, hupd, ?_⟩
    rcases hupd with ⟨-, e1, e2, e3⟩ | ⟨-, e1, e2, e3⟩ | ⟨-, e1, e2, e3⟩ <;>
      rw [e1, e2, e3]
    · have h := i128_saturating_add_one_bounds hf0 hf1
      exact ⟨h.1, le_refl _, le_refl _, h.2.1, ha0, hb0⟩
    · have h := i128_saturating_add_one_bounds ha0 ha1
      exact ⟨le_refl _, h.1, le_refl _, hf0, h.2.1, hb0⟩
    · have h := i128_saturating_add_one_bounds hb0 hb1
      exact ⟨le_refl _, le_refl _, h.1, hf0, ha0, h.2.1⟩
  · obtain ⟨-, rfl, -⟩ := constructor_ok_inv hok
    rfl
  · obtain ⟨adm, -, -, -, hnone, rfl, -⟩ := create_ok_inv hok
    intro j q hq
    simp only
    have hj : j ≠ id2 := by
      intro hj
      rw [hj, hnone] at hq
      exact Option.noConfusion hq
    simp [hj, hq]
  · obtain ⟨adm, -, -, rfl, -⟩ := transfer_ok_inv hok
    rfl

/-- C1 counterexample: in the reachable state where user 7 has already voted
on `"P1"` and the voting window has ended, a repeat vote by user 7 fails with
`VotingNotActive`, not `UserAlreadyVoted` — so a marked vote record does not
always produce `UserAlreadyVoted`. -/
theorem claim_C1_counterexample :
    Reachable votedState ∧
    (votedState.votes 7 "P1").isSome = true ∧
    vote (fun _ => true) (fun _ _ => 1) 1432101 votedState 7 "P1" VOTE_FOR =
      .err votedState .VotingNotActive ∧
    TokenGatedVoteContractErrors.VotingNotActive ≠ .UserAlreadyVoted :=
  ⟨votedState_reachable, rfl, rfl, by decide⟩



/-- Whenever the (floored) remaining duration plus the buffer fits in `u32`,
`calculate_proposal_ttl` computes the exact, untruncated formula. -/
theorem calculate_proposal_ttl_exact {now et : Nat}
    (h : et - now + PROPOSAL_TTL_BUFFER < U32_MOD) :
    calculate_proposal_ttl now et =
      max ((et - now) + PROPOSAL_TTL_BUFFER) PROPOSALS_TTL_EXTENSION := by
  by_cases hgt : et > now
  · simp only [calculate_proposal_ttl, if_pos hgt]
    unfold U32_MOD PROPOSAL_TTL_BUFFER PROPOSALS_TTL_EXTENSION at *
    omega
  · simp only [calculate_proposal_ttl, if_neg hgt]
    unfold U32_MOD PROPOSAL_TTL_BUFFER PROPOSALS_TTL_EXTENSION at *
    omega

/-- C8 (amended): the proposal-entry TTL extension equals
`max(remaining_duration + PROPOSAL_TTL_BUFFER, PROPOSALS_TTL_EXTENSION)`
exactly whenever `(end_time - now) + PROPOSAL_TTL_BUFFER < 2^32` — in
particular on every successful `vote` from a reachable state (where
`now ≥ start_time` bounds the remaining duration by `MAX_PROPOSAL_DURATION`);
`create_proposal` records this proposal TTL and refreshes the index TTL to
the fixed `PROPOSALS_TTL_EXTENSION` on every append, and `vote` refreshes the
vote-record TTL to the fixed `VOTE_TTL_EXTENSION`.  (For a start time more
than `2^32` seconds past `now`, creation truncates the duration to 32 bits
first — see the counterexample.) -/
theorem claim_C8 {auth : Nat → Bool} {balance : Nat → Nat → Int} :
    (∀ now et, et - now + PROPOSAL_TTL_BUFFER < U32_MOD →
      calculate_proposal_ttl now et =
        max ((et - now) + PROPOSAL_TTL_BUFFER) PROPOSALS_TTL_EXTENSION) ∧
    (∀ now s id d st et s' evs, create_proposal auth now s id d st et = .ok s' evs →
      evs = [(.Proposal id, calculate_proposal_ttl now et),
             (.Proposals, PROPOSALS_TTL_EXTENSION)]) ∧
    (∀ now s user id choice s' evs, Reachable s →
      vote auth balance now s user id choice = .ok s' evs →
      ∃ p, s.proposals id = some p ∧
        evs = [(.Proposal id,
                max ((p.end_time - now) + PROPOSAL_TTL_BUFFER)
                  PROPOSALS_TTL_EXTENSION),
               (.Votes user, VOTE_TTL_EXTENSION)]) := by
  refine ⟨fun now et h => calculate_proposal_ttl_exact h,
    fun now s id d st et s' evs h => ?_, fun now s user id choice s' evs hs h => ?_⟩
  · obtain ⟨adm, -, -, -, -, -, hevs⟩ := create_ok_inv h
    exact hevs
  · obtain ⟨-, p, hp, hstart, -, -, tok, -, -, p1, hp1, -, hevs⟩ := vote_ok_inv h
    obtain ⟨-, -, het, -⟩ := applyChoice_some_inv hp1
    obtain ⟨-, -, hdur, -⟩ := (reachable_wf hs).2 id p hp
    refine ⟨p, hp, ?_⟩
    rw [hevs, het]
    rw [calculate_proposal_ttl_exact ?bound]
    case bound =>
      unfold MAX_PROPOSAL_DURATION at hdur
      unfold PROPOSAL_TTL_BUFFER U32_MOD
      omega

/-- C8 counterexample: at ledger time 0, creating a proposal whose window is
`[2^32, 2^32 + MIN_PROPOSAL_DURATION]` passes every timing check, yet the
recorded proposal TTL is 2100000 (the duration was truncated to 32 bits
before the buffer was added) while the exact formula
`max(remaining + buffer, base)` gives 4296004096. -/
theorem claim_C8_counterexample :
    Reachable deployedState ∧
    (create_proposal (fun _ => true) 0 deployedState "P1" "d"
        4294967296 4295399296).errOf = none ∧
    (create_proposal (fun _ => true) 0 deployedState "P1" "d"
        4294967296 4295399296).ttlOf =
      [(.Proposal "P1", 2100000), (.Proposals, 2100000)] ∧
    max ((4295399296 - 0) + PROPOSAL_TTL_BUFFER) PROPOSALS_TTL_EXTENSION =
      4296004096 ∧
    (2100000 : Nat) ≠ 4296004096 :=
  ⟨deployedState_reachable, rfl, rfl, by decide, by decide⟩



/-- C1 witness: user 7, already marked for `"P1"`, votes again inside the
window and gets `UserAlreadyVoted`. -/
theorem claim_C1_witness :
    vote (fun _ => true) (fun _ _ => 1) 1000300 votedState 7 "P1" VOTE_FOR =
      .err votedState .UserAlreadyVoted :=
  (claim_C1 votedState_reachable).2.1
    { description := "d", start_time := 1000100, end_time := 1432100,
      total_for := 1, total_against := 0, total_abstain := 0 }
    rfl (by decide) (by decide) rfl rfl

/-- C2 witness: a vote one second before `start_time` fails with
`VotingNotActive`. -/
theorem claim_C2_witness :
    vote (fun _ => true) (fun _ _ => 1) 999999 createdState 7 "P1" VOTE_FOR =
      .err createdState .VotingNotActive :=
  ((@claim_C2 (fun _ => true) (fun _ _ => 1) 999999 createdState 7 "P1" VOTE_FOR
    proposalP1 rfl rfl (by decide)).1).mpr (Or.inl (by decide))

/-- C3 witness: with no proposal stored, the lookup check fires first. -/
theorem claim_C3_witness :
    vote (fun _ => true) (fun _ _ => 1) 5 deployedState 7 "P1" VOTE_FOR =
      .err deployedState .ProposalNotFound :=
  (claim_C3 rfl).1 (fun _ _ => 1) rfl

/-- C4 witness: the successful example vote commits both the vote-record mark
and the tallied proposal. -/
theorem claim_C4_witness :
    votedState.votes 7 "P1" = some true ∧
    ∃ p p1, createdState.proposals "P1" = some p ∧
      applyChoice p VOTE_FOR = some p1 ∧ votedState.proposals "P1" = some p1 :=
  (@claim_C4 (fun _ => true) (fun _ _ => 1) 1000200 createdState).2.2.2.2.2.2.1
    7 "P1" VOTE_FOR votedState
    [(.Proposal "P1", calculate_proposal_ttl 1000200 1432100),
     (.Votes 7, VOTE_TTL_EXTENSION)] rfl

/-- C5 witness: `start_time ≥ end_time` is reported as `StartTimeAfterEnd`. -/
theorem claim_C5_witness :
    validate_proposal_times 0 10 5 = some .StartTimeAfterEnd :=
  ((@claim_C5 (fun _ => true) 0 deployedState "P1" "d" 10 5 10 rfl rfl).1).mpr
    (by decide)

/-- C6 witness: initializing a fresh deployment stores admin 10 and token 20. -/
theorem claim_C6_witness :
    __constructor initialState 10 20 = .ok deployedState [] :=
  (@claim_C6 initialState 10 20).2.2 rfl

/-- C7 witness: the error of a vote on a missing proposal is among the five
documented errors. -/
theorem claim_C7_witness :
    TokenGatedVoteContractErrors.ProposalNotFound = .ProposalNotFound ∨
    TokenGatedVoteContractErrors.ProposalNotFound = .VotingNotActive ∨
    TokenGatedVoteContractErrors.ProposalNotFound = .UserAlreadyVoted ∨
    TokenGatedVoteContractErrors.ProposalNotFound = .UserCannotVote ∨
    TokenGatedVoteContractErrors.ProposalNotFound = .InvalidChoice :=
  @claim_C7 (fun _ => true) (fun _ _ => 1) 5 deployedState deployedState 7 "P1"
    VOTE_FOR .ProposalNotFound deployedState_reachable rfl

/-- C8 witness: the example vote's recorded TTLs match the exact formula. -/
theorem claim_C8_witness :
    ∃ p, createdState.proposals "P1" = some p ∧
      [(TokenGatedVoteContractDataKey.Proposal "P1", (2100000 : Nat)),
       (TokenGatedVoteContractDataKey.Votes 7, (1600000 : Nat))] =
      [(TokenGatedVoteContractDataKey.Proposal "P1",
        max ((p.end_time - 1000200) + PROPOSAL_TTL_BUFFER)
          PROPOSALS_TTL_EXTENSION),
       (TokenGatedVoteContractDataKey.Votes 7, VOTE_TTL_EXTENSION)] :=
  (@claim_C8 (fun _ => true) (fun _ _ => 1)).2.2 1000200 createdState 7 "P1"
    VOTE_FOR votedState
    [(.Proposal "P1", (2100000 : Nat)), (.Votes 7, (1600000 : Nat))]
    createdState_reachable rfl

/-- C9 witness: transferring the admin role from 10 to 99 succeeds and only
replaces the admin field. -/
theorem claim_C9_witness :
    transfer_admin (fun _ => true) deployedState 99 =
      .ok { deployedState with admin := some 99 } [] :=
  ((@claim_C9 (fun _ => true) deployedState 99).2.2 10 rfl rfl).1

/-- C10 witness: the per-user view of the example state lists `"P1"` as voted
with voting power 1. -/
theorem claim_C10_witness :
    get_user_details (fun _ _ => 1) votedState 7 = .ok [("P1", true, 1)] :=
  (@claim_C10 (fun _ _ => 1) votedState 7 20 rfl).1

end TokenGatedVote
